import Mathlib

/-!
# lastfm-collage-go: tile acquisition, artwork fetch and grid placement

A shallow embedding of `main.go`.

* Go strings are modelled as lists of characters (`Str`).  The string functions the
  program uses (`strings.Replace`, `strings.Split`, `strings.Index`, `strconv.Atoi`)
  only look for ASCII patterns, so scanning characters and scanning bytes agree.
* Go `int` is the 64-bit signed integer; `wrap64` is its two's-complement reduction and
  is applied where an argument supplied by the caller can make a product or sum leave
  the range.  Slice positions and the pixel counters of `drawCollage` stay below
  `300 * (len(tiles) + 1)` and are exact.
* A run-time panic is the `Outcome.crash` result.  The allocation checks of the runtime
  and of `image.NewRGBA` (negative or too large a size) are modelled for the 64-bit targets;
  running out of physical memory below those limits is outside the model.
* The two upstream services are data: `Upstream` fixes what the JSON API and each listing
  page answer, `FetchResult` what an artwork request answers.
-/

namespace LastfmCollage

/-! ## Strings and machine integers -/

/-- Go string, as a sequence of characters. -/
abbrev Str := List Char

/-- Two's-complement reduction of an integer to the 64-bit `int` range
(`2^63 = 9223372036854775808`, `2^64 = 18446744073709551616`). -/
@[irreducible]
def wrap64 (z : Int) : Int :=
  (z + 9223372036854775808) % 18446744073709551616 - 9223372036854775808

/-- Result of a computation that may end in a run-time panic. -/
inductive Outcome (α : Type) where
  | crash : Outcome α
  | ret : α → Outcome α
deriving DecidableEq, Repr

/-- Largest number of bytes the runtime hands out in one piece on the 64-bit targets
(`maxAlloc = 2^48 = 281474976710656`). -/
def maxAlloc : Int := 281474976710656

/-- Runtime `makeslice` for elements of `elemSize` bytes: `make` panics when the requested
capacity is negative or when `elemSize * cap` bytes exceed `maxAlloc`. -/
def makeslicePanics (elemSize cap : Int) : Bool :=
  decide (cap < 0) || decide (elemSize * cap > maxAlloc)

/-- The test `c >= '0' && c <= '9'` (code points 48 to 57). -/
def isDigit (c : Char) : Bool :=
  decide (48 ≤ c.toNat) && decide (c.toNat ≤ 57)

/-- The number `c - '0'` of a digit character. -/
def digitVal (c : Char) : Nat :=
  c.toNat - 48

/-- Number denoted by a sequence of decimal digits (most significant first). -/
def decimalValue (ds : Str) : Nat :=
  ds.foldl (fun n c => n * 10 + digitVal c) 0

/-- Library `strings.Index(s, sub) != -1`: `sub` occurs in `s`. -/
def hasSub (sub : Str) : Str → Bool
  | [] => sub.isEmpty
  | c :: t => sub.isPrefixOf (c :: t) || hasSub sub t

/-- Library `strings.Replace(s, old, new, 1)`: the first occurrence of `old` in `s`
is replaced by `new`; `s` is returned as it is when `old` does not occur. -/
def replaceFirst (old new : Str) : Str → Str
  | [] => if old.isEmpty then new else []
  | c :: t =>
    if old.isPrefixOf (c :: t) then new ++ (c :: t).drop old.length
    else c :: replaceFirst old new t

/-- Library `strings.Split(s, " ")[0]`: the text before the first space. -/
def firstField (s : Str) : Str :=
  s.takeWhile (fun c => c != ' ')

/-- Library `strconv.Atoi` on a 64-bit target: the value and whether `err == nil`.
One leading sign is accepted, every other character must be a decimal digit; a syntax
error gives 0 and a value out of range gives the nearest bound of `int`. -/
def atoi (s : Str) : Int × Bool :=
  let neg := s.head? == some '-'
  let body := if s.head? == some '-' || s.head? == some '+' then s.tail else s
  if body.isEmpty || !(body.all isDigit) then (0, false)
  else if neg then
    if decimalValue body > 9223372036854775808 then (-9223372036854775808, false)
    else (-(decimalValue body : Int), true)
  else
    if decimalValue body ≥ 9223372036854775808 then (9223372036854775807, false)
    else ((decimalValue body : Int), true)

/-- Library `strconv.Itoa`. -/
def itoa (n : Int) : Str :=
  (toString n).toList

/-! ## `toWebp`, `parseHumanNumber`, `min` -/

/-- Source `toWebp`. -/
def toWebp (url : Str) : Str :=
  let newURL := replaceFirst ".jpg".toList ".webp".toList url
  let newURL := replaceFirst ".png".toList ".webp".toList newURL
  let newURL := replaceFirst ".gif".toList ".webp".toList newURL
  newURL

/-- Source `parseHumanNumber`: every digit of the text is accumulated, whatever stands
between the digits. -/
def parseHumanNumber (text : Str) : Int :=
  text.foldl
    (fun num c => if isDigit c then wrap64 (num * 10 + ((c.toNat : Int) - 48)) else num) 0

/-- Source `min`. -/
def min (x y : Int) : Int :=
  if x > y then y else x

/-- Number denoted by the leading run of ASCII digits of a text, 0 when the text does not
begin with a digit: the reading of a count text that the specification describes. -/
def leadingDigitsValue (text : Str) : Int :=
  (decimalValue (text.takeWhile isDigit) : Int)

/-- Number of positions of `s` at which `sub` occurs. -/
def countSub (sub : Str) : Str → Nat
  | [] => if sub.isEmpty then 1 else 0
  | c :: t => (if sub.isPrefixOf (c :: t) then 1 else 0) + countSub sub t

/-! ## Data model -/

/-- Decoded artwork raster, identified abstractly. -/
structure Image where
  id : Nat
deriving DecidableEq, Repr

/-- Source `tile`; `img = none` is the nil pointer. -/
structure tile where
  artist : Str
  album : Str
  track : Str
  playCount : Int
  imgURL : Str
  img : Option Image
deriving DecidableEq, Repr

/-- Size of a `tile` in bytes on the 64-bit targets: four strings of 16 bytes, an `int`
and a pointer. -/
def tileSize : Int := 80

/-- Source constant `ALBUM`. -/
def ALBUM : Str := "album".toList

/-- Source constant `ARTIST`. -/
def ARTIST : Str := "artist".toList

/-- Source constant `TRACK`. -/
def TRACK : Str := "track".toList

/-- One element of the `topalbums.album` array, through the four paths the adapter reads:
`artist.name`, `name`, `playcount` (as `int`) and `image.3.#text`. -/
structure AlbumEntry where
  artistName : Str
  name : Str
  playcount : Int
  image3 : Str
deriving DecidableEq, Repr

/-- Answer of the JSON API to the single `user.gettopalbums` request: `httpClient.Get`
returns an error, or a response with a status code whose body either cannot be read
(`none`) or holds the album array. -/
inductive ApiResponse where
  | transportError : ApiResponse
  | response (statusCode : Int) (body : Option (List AlbumEntry)) : ApiResponse
deriving DecidableEq, Repr

/-- One `tr.chartlist-row` element, through the selectors the row callback reads. -/
structure ChartRow where
  nameLink : Str
  artistLink : Str
  avatarSrcs : List Str
  coverSrcs : List Str
  countBarValue : Str
deriving DecidableEq, Repr

/-- Answer to one listing-page request: the collector runs the error callback, or it
delivers the page, whose `p.metadata-display` texts and `tr.chartlist-row` elements are
handed to the two HTML callbacks in registration order. -/
inductive PageResponse where
  | error : PageResponse
  | html (metadata : List Str) (rows : List ChartRow) : PageResponse
deriving DecidableEq, Repr

/-- What the upstream services answer for the query (user, period and kind fixed):
the API response and the response to each listing page number. -/
structure Upstream where
  api : ApiResponse
  page : Nat → PageResponse

/-! ## `fetchTileData` -/

/-- The tile the album callback appends for an entry. -/
def albumTile (a : AlbumEntry) : tile :=
  { artist := a.artistName, album := a.name, track := [], playCount := a.playcount,
    imgURL := toWebp a.image3, img := none }

/-- The `albums.ForEach` iteration with limit `n = rows*cols`: the callback appends the
entry when its artwork URL is non-empty and answers `len(tiles) < n`; the iteration goes
on to the next element only on `true`. -/
def albumLoop (n : Int) : List AlbumEntry → List tile → List tile
  | [], tiles => tiles
  | a :: rest, tiles =>
    let tiles1 := if a.image3 ≠ [] then tiles ++ [albumTile a] else tiles
    if (tiles1.length : Int) < n then albumLoop n rest tiles1 else tiles1

/-- Identifier of the placeholder artwork; rows showing it are dropped. -/
def placeholderId : Str := "2a96cbd8b46e442fc41c2b86b821562f".toList

/-- The play count of a listing row: `strconv.Atoi(strings.Split(text, " ")[0])` with
the error discarded. -/
def rowPlayCount (playCountText : Str) : Int :=
  (atoi (firstField playCountText)).1

/-- The tile the row callback appends: `track` stays empty for the artist kind. -/
def rowTile (artist track playCountText imgURL : Str) : tile :=
  { artist := artist, album := [], track := track, playCount := rowPlayCount playCountText,
    imgURL := toWebp imgURL, img := none }

/-- The `tr.chartlist-row` callback: the tile list after the callback ran on row `e`.
Indexing the empty attribute list panics. -/
def onChartlistRow (collageType : Str) (e : ChartRow) (tiles : List tile) :
    Outcome (List tile) :=
  if collageType = ARTIST then
    match e.avatarSrcs with
    | [] => Outcome.crash
    | src :: _ =>
      let imgURL := replaceFirst "avatar70s".toList "avatar300s".toList src
      if hasSub placeholderId imgURL then Outcome.ret tiles
      else Outcome.ret (tiles ++ [rowTile e.nameLink [] e.countBarValue imgURL])
  else
    match e.coverSrcs with
    | [] => Outcome.crash
    | src :: _ =>
      let imgURL := replaceFirst "64s".toList "300x300".toList src
      if hasSub placeholderId imgURL then Outcome.ret tiles
      else Outcome.ret (tiles ++ [rowTile e.artistLink e.nameLink e.countBarValue imgURL])

/-- The row callback over the rows of one page, in document order. -/
def onRows (collageType : Str) : List ChartRow → List tile → Outcome (List tile)
  | [], tiles => Outcome.ret tiles
  | e :: rest, tiles =>
    match onChartlistRow collageType e tiles with
    | Outcome.crash => Outcome.crash
    | Outcome.ret tiles1 => onRows collageType rest tiles1

/-- The variables the listing callbacks share: `tiles`, `total`, `collyFailed`. -/
structure Scrape where
  tiles : List tile
  total : Int
  collyFailed : Bool
deriving DecidableEq, Repr

/-- Effect of `collector.Visit` on the shared variables, for the response received. -/
def visit (collageType : Str) (resp : PageResponse) (st : Scrape) : Outcome Scrape :=
  match resp with
  | PageResponse.error => Outcome.ret { st with collyFailed := true }
  | PageResponse.html metadata rows =>
    let total := metadata.foldl (fun _ text => parseHumanNumber text) st.total
    match onRows collageType rows st.tiles with
    | Outcome.crash => Outcome.crash
    | Outcome.ret tiles1 => Outcome.ret { st with tiles := tiles1, total := total }

/-- The bound `min(3, int(math.Ceil(float64(limit)/float64(50))))` of the page loop.
The quotient is the exact ceiling for `limit` up to 100 and is at least 3 beyond. -/
def pageCap (limit : Int) : Int :=
  min 3 (-((-limit) / 50))

/-- The page loop from counter `i` with `remaining` iterations left before the bound:
the page numbers requested, in order, and the shared variables at the end. -/
def pageLoop (up : Upstream) (collageType : Str) :
    Nat → Nat → Scrape → List Nat × Outcome Scrape
  | 0, _, st => ([], Outcome.ret st)
  | remaining + 1, i, st =>
    if st.collyFailed || (st.total != -1 && decide (st.total < ((i : Int) + 1) * 50)) then
      ([], Outcome.ret st)
    else
      match visit collageType (up.page (i + 1)) st with
      | Outcome.crash => ([i + 1], Outcome.crash)
      | Outcome.ret st1 =>
        ((i + 1) :: (pageLoop up collageType remaining (i + 1) st1).1,
          (pageLoop up collageType remaining (i + 1) st1).2)

/-- Source `fetchTileData`, together with the listing pages it requested.
`make([]tile, 0, rows*cols)` panics on a negative or too large capacity; `none` is the nil
result. -/
def fetchTileDataRun (up : Upstream) (rows cols : Int) (collageType : Str) :
    List Nat × Outcome (Option (List tile)) :=
  if makeslicePanics tileSize (wrap64 (rows * cols)) then ([], Outcome.crash)
  else
    let limit := wrap64 (wrap64 (rows * cols) + 15)
    if collageType = ALBUM then
      match up.api with
      | ApiResponse.transportError => ([], Outcome.ret none)
      | ApiResponse.response statusCode body =>
        if statusCode ≠ 200 then ([], Outcome.ret none)
        else
          match body with
          | none => ([], Outcome.ret none)
          | some albums => ([], Outcome.ret (some (albumLoop (wrap64 (rows * cols)) albums [])))
    else if collageType = ARTIST ∨ collageType = TRACK then
      match pageLoop up collageType (pageCap limit).toNat 0
          { tiles := [], total := -1, collyFailed := false } with
      | (issued, Outcome.crash) => (issued, Outcome.crash)
      | (issued, Outcome.ret st) =>
        if st.collyFailed then (issued, Outcome.ret none)
        else (issued, Outcome.ret (some st.tiles))
    else ([], Outcome.ret (some []))

/-- Source `fetchTileData`. -/
def fetchTileData (up : Upstream) (rows cols : Int) (collageType : Str) :
    Outcome (Option (List tile)) :=
  (fetchTileDataRun up rows cols collageType).2

/-! ## `fetchImages` -/

/-- Answer to the artwork request of one tile: `httpClient.Get` returns an error and no
response, or a response with a status code; `decoded` is what `webp.Decode` makes of the
body (`none` when decoding fails). -/
inductive FetchResult where
  | transportError : FetchResult
  | response (statusCode : Int) (decoded : Option Image) : FetchResult
deriving DecidableEq, Repr

/-- Source `fetchOneImage`: the tile after the call.  The error of `httpClient.Get` is
discarded and `resp.Body` is read at once, which is a nil dereference when there is no
response. -/
def fetchOneImage (t : tile) (r : FetchResult) : Outcome tile :=
  match r with
  | FetchResult.transportError => Outcome.crash
  | FetchResult.response statusCode decoded =>
    if statusCode = 200 then
      match decoded with
      | some img => Outcome.ret { t with img := some img }
      | none => Outcome.ret t
    else Outcome.ret t

/-- The goroutines started for the tiles from position `i` on, joined: each writes its own
tile only, and a panic in any of them ends the process. -/
def fetchFrom (net : Nat → FetchResult) : Nat → List tile → Outcome (List tile)
  | _, [] => Outcome.ret []
  | i, t :: rest =>
    match fetchOneImage t (net i), fetchFrom net (i + 1) rest with
    | Outcome.ret t1, Outcome.ret rest1 => Outcome.ret (t1 :: rest1)
    | _, _ => Outcome.crash

/-- Source `fetchImages`: the tile sequence after `wg.Wait()`, where `net i` is the answer
to the request for the tile at position `i`. -/
def fetchImages (tiles : List tile) (net : Nat → FetchResult) : Outcome (List tile) :=
  fetchFrom net 0 tiles

/-! ## `drawCollage` -/

/-- Library `image.Rectangle`. -/
structure Rectangle where
  minX : Int
  minY : Int
  maxX : Int
  maxY : Int
deriving DecidableEq, Repr

/-- Library `image.Rect`: the rectangle with the coordinates put in order. -/
def Rect (x0 y0 x1 y1 : Int) : Rectangle :=
  { minX := if x0 > x1 then x1 else x0, minY := if y0 > y1 then y1 else y0,
    maxX := if x0 > x1 then x0 else x1, maxY := if y0 > y1 then y0 else y1 }

/-- Library `mul3NonNeg` of package `image`: the product `x*y*z`, or -1 when an argument is
negative or a product leaves the range of `int`. -/
def mul3NonNeg (x y z : Int) : Int :=
  if x < 0 ∨ y < 0 ∨ z < 0 then -1
  else if x * y ≥ 18446744073709551616 then -1
  else if x * y * z ≥ 18446744073709551616 then -1
  else if x * y * z ≥ 9223372036854775808 then -1
  else x * y * z

/-- Library `image.NewRGBA(r)` panics: the pixel buffer of `4 * r.Dx() * r.Dy()` bytes has a
negative or out-of-range length (`pixelBufferLength`), or `make` refuses it. -/
def newRGBAPanics (r : Rectangle) : Bool :=
  decide (mul3NonNeg 4 (wrap64 (r.maxX - r.minX)) (wrap64 (r.maxY - r.minY)) < 0)
    || makeslicePanics 1 (mul3NonNeg 4 (wrap64 (r.maxX - r.minX)) (wrap64 (r.maxY - r.minY)))

/-- A `drawTextWithStroke` call together with the clip rectangle set just before it. -/
structure TextPaint where
  clip : Rectangle
  x : Int
  y : Int
  lines : List Str
deriving DecidableEq, Repr

/-- What one iteration of the tile loop paints: the `draw.Draw` destination rectangle and
source image when the tile has one, and the caption when a flag asks for it. -/
structure CellPaint where
  image : Option (Rectangle × Image)
  text : Option TextPaint
deriving DecidableEq, Repr

/-- The raster `drawCollage` returns: its bounds and what was painted for each tile, in
iteration order. -/
structure RGBA where
  bounds : Rectangle
  painted : List CellPaint
deriving DecidableEq, Repr

/-- Source constant `dim`. -/
def dim : Int := 300

/-- The caption lines of a tile. -/
def captionLines (t : tile) (collageType : Str) (info playCount : Bool) : List Str :=
  let lines : List Str := []
  let lines :=
    if info then
      (if collageType = ALBUM then lines ++ [t.album]
        else if collageType = TRACK then lines ++ [t.track]
        else lines) ++ [t.artist]
    else lines
  if playCount then lines ++ [itoa t.playCount ++ " plays".toList] else lines

/-- The painting part of one loop iteration, with the counters at `x`, `y`. -/
def paintTile (t : tile) (collageType : Str) (info playCount : Bool) (x y : Int) :
    CellPaint :=
  { image := t.img.map (fun im => (Rect x y (x + dim) (y + dim), im)),
    text :=
      if info || playCount then
        some { clip := Rect x y (x + dim) (y + dim), x := x + 2, y := y + 2,
               lines := captionLines t collageType info playCount }
      else none }

/-- The tile loop of `drawCollage` from index `i` with the counters at `x`, `y`.
The remainder `(i+1)%cols` panics when `cols` is 0. -/
def drawLoop (collageType : Str) (cols : Int) (info playCount : Bool) :
    List tile → Nat → Int → Int → Outcome (List CellPaint)
  | [], _, _, _ => Outcome.ret []
  | t :: rest, i, x, y =>
    if cols = 0 then Outcome.crash
    else
      match drawLoop collageType cols info playCount rest (i + 1)
          (if Int.tmod ((i : Int) + 1) cols = 0 then 0 else x + dim)
          (if Int.tmod ((i : Int) + 1) cols = 0 then y + dim else y) with
      | Outcome.crash => Outcome.crash
      | Outcome.ret ps => Outcome.ret (paintTile t collageType info playCount x y :: ps)

/-- Source `drawCollage`: the raster is allocated first, then the tile loop runs. -/
def drawCollage (tiles : List tile) (collageType : Str) (rows cols : Int)
    (info playCount : Bool) : Outcome RGBA :=
  if newRGBAPanics (Rect 0 0 (wrap64 (dim * cols)) (wrap64 (dim * rows))) then Outcome.crash
  else
    match drawLoop collageType cols info playCount tiles 0 0 0 with
    | Outcome.crash => Outcome.crash
    | Outcome.ret ps =>
      Outcome.ret
        { bounds := Rect 0 0 (wrap64 (dim * cols)) (wrap64 (dim * rows)), painted := ps }

/-- The 300x300 cell of index `i` in a grid of `cols` columns filled row by row: column
`i mod cols`, row `i div cols`. -/
def cellRect (cols : Int) (i : Nat) : Rectangle :=
  { minX := 300 * ((i : Int) % cols), minY := 300 * ((i : Int) / cols),
    maxX := 300 * ((i : Int) % cols) + 300, maxY := 300 * ((i : Int) / cols) + 300 }

/-! ## Sample upstream data -/

/-- A row of the artist listing with artwork. -/
def sampleRow : ChartRow :=
  { nameLink := "Nm".toList, artistLink := [],
    avatarSrcs := ["https://lastfm.freetls.fastly.net/i/u/avatar70s/ab.jpg".toList],
    coverSrcs := [], countBarValue := "12 scrobbles".toList }

/-- The tile the row callback makes of `sampleRow` for the artist kind. -/
def sampleTile : tile :=
  { artist := "Nm".toList, album := [], track := [], playCount := 12,
    imgURL := "https://lastfm.freetls.fastly.net/i/u/avatar300s/ab.webp".toList, img := none }

/-- A listing of 75 items in pages of 50: page 1 holds 50 rows, page 2 the other 25, and
every page shows the total 75. -/
def listing75 : Upstream :=
  { api := ApiResponse.response 200 (some []),
    page := fun p =>
      if p = 1 then PageResponse.html ["75".toList] (List.replicate 50 sampleRow)
      else if p = 2 then PageResponse.html ["75".toList] (List.replicate 25 sampleRow)
      else PageResponse.html ["75".toList] [] }

/-- An album entry with artwork. -/
def sampleAlbum (k : Int) : AlbumEntry :=
  { artistName := "Ar".toList, name := "Al".toList, playcount := k,
    image3 := "https://lastfm.freetls.fastly.net/i/u/300x300/ab.png".toList }

/-- An API answer with the given album array. -/
def apiWith (albums : List AlbumEntry) : Upstream :=
  { api := ApiResponse.response 200 (some albums), page := fun _ => PageResponse.error }

/-- A listing of 120 items whose first page is delivered and whose second page request
fails. -/
def listingFailsOn2 : Upstream :=
  { api := ApiResponse.response 200 (some []),
    page := fun p =>
      if p = 1 then PageResponse.html ["120".toList] (List.replicate 50 sampleRow)
      else PageResponse.error }

/-- A tile as the adapters return it, before the artwork is fetched. -/
def plainTile (url : Str) : tile :=
  { artist := "Ar".toList, album := "Al".toList, track := [], playCount := 3, imgURL := url,
    img := none }

/-! ## Number parsing -/

theorem wrap64_mul_add (a d : Int) : wrap64 (wrap64 a * 10 + d) = wrap64 (a * 10 + d) := by
  unfold wrap64
  have h : (a + 9223372036854775808) % 18446744073709551616
      = a + 9223372036854775808
        - 18446744073709551616 * ((a + 9223372036854775808) / 18446744073709551616) :=
    Int.emod_def _ _
  rw [h]
  have e : (a + 9223372036854775808
        - 18446744073709551616 * ((a + 9223372036854775808) / 18446744073709551616)
        - 9223372036854775808) * 10 + d + 9223372036854775808
      = (a * 10 + d + 9223372036854775808)
        + 18446744073709551616 * (-(10 * ((a + 9223372036854775808) / 18446744073709551616))) := by
    ring
  rw [e, Int.add_mul_emod_self_left]

theorem wrap64_of_fits (z : Int) (h0 : -9223372036854775808 ≤ z) (h1 : z < 9223372036854775808) :
    wrap64 z = z := by
  unfold wrap64
  omega

theorem digitVal_cast (c : Char) (h : isDigit c = true) :
    ((digitVal c : Nat) : Int) = (c.toNat : Int) - 48 := by
  simp only [isDigit, Bool.and_eq_true, decide_eq_true_eq] at h
  unfold digitVal
  omega

theorem parseHumanNumber_foldl (text : Str) (n : Nat) :
    text.foldl
        (fun num c => if isDigit c then wrap64 (num * 10 + ((c.toNat : Int) - 48)) else num)
        (wrap64 n)
      = wrap64 ((text.filter isDigit).foldl (fun n c => n * 10 + digitVal c) n : Nat) := by
  induction text generalizing n with
  | nil => rw [List.foldl_nil, List.filter_nil, List.foldl_nil]
  | cons c t ih =>
    by_cases hc : isDigit c = true
    · rw [List.foldl_cons, if_pos hc, List.filter_cons_of_pos hc, List.foldl_cons,
        wrap64_mul_add, ← digitVal_cast c hc, ← ih (n * 10 + digitVal c)]
      simp only [Nat.cast_add, Nat.cast_mul, Nat.cast_ofNat]
    · rw [List.foldl_cons, if_neg hc, List.filter_cons_of_neg hc]
      exact ih n

theorem parseHumanNumber_eq (text : Str) :
    parseHumanNumber text = wrap64 (decimalValue (text.filter isDigit)) := by
  have h := parseHumanNumber_foldl text 0
  have h0 : wrap64 ((0 : Nat) : Int) = 0 := wrap64_of_fits _ (by decide) (by decide)
  rw [h0] at h
  exact h

theorem filter_isDigit_leading (ds rest : Str) (hd : ds.all isDigit = true)
    (hr : rest.all (fun c => !isDigit c) = true) :
    (ds ++ rest).filter isDigit = ds ∧ (ds ++ rest).takeWhile isDigit = ds := by
  induction ds with
  | nil =>
    constructor
    · rw [List.nil_append, List.filter_eq_nil_iff]
      intro c hc
      have := List.all_eq_true.mp hr c hc
      simpa using this
    · cases rest with
      | nil => rfl
      | cons c r =>
        have := List.all_eq_true.mp hr c (List.mem_cons_self _ _)
        have hc : isDigit c = false := by simpa using this
        rw [List.nil_append, List.takeWhile_cons, hc]
        rfl
  | cons c t ih =>
    simp only [List.all_cons, Bool.and_eq_true] at hd
    obtain ⟨h1, h2⟩ := ih hd.2
    constructor
    · rw [List.cons_append, List.filter_cons_of_pos hd.1, h1]
    · rw [List.cons_append, List.takeWhile_cons, hd.1, if_pos rfl, h2]

/-- C10 (as amended): `parseHumanNumber` reads all the ASCII digits of the text, in order,
wherever they stand, and skips every other character instead of stopping at it: the result
is the number denoted by the digits of the text (reduced to the 64-bit `int`), hence 0 for
a text without digits.  It is the number denoted by the leading run of digits when no
digit stands after the first non-digit character and that number is below `2^63`. -/
theorem parseHumanNumber_all_digits (text ds rest : Str) :
    parseHumanNumber text = wrap64 (decimalValue (text.filter isDigit)) ∧
    (ds.all isDigit = true → rest.all (fun c => !isDigit c) = true →
      decimalValue ds < 9223372036854775808 →
      parseHumanNumber (ds ++ rest) = leadingDigitsValue (ds ++ rest)) := by
  refine ⟨parseHumanNumber_eq text, fun hd hr hfit => ?_⟩
  obtain ⟨h1, h2⟩ := filter_isDigit_leading ds rest hd hr
  unfold leadingDigitsValue
  rw [parseHumanNumber_eq, h1, h2]
  exact wrap64_of_fits _ (by omega) (by omega)

/-- C10 at a concrete text: `120 artists` is read as 120, its leading digits. -/
theorem parseHumanNumber_all_digits_witness :
    parseHumanNumber "120 artists".toList = leadingDigitsValue "120 artists".toList :=
  (parseHumanNumber_all_digits [] "120".toList " artists".toList).2
    (by decide) (by decide) (by decide)

/-- C10 (as stated) fails: on the text `1,234` the leading run of digits denotes 1, and
`parseHumanNumber` returns 1234. -/
theorem parseHumanNumber_not_leading_digits :
    parseHumanNumber "1,234".toList = 1234 ∧ leadingDigitsValue "1,234".toList = 1 ∧
      parseHumanNumber "1,234".toList ≠ leadingDigitsValue "1,234".toList := by
  with_unfolding_all decide

theorem isDigit_ne_space {c : Char} (h : isDigit c = true) : (c != ' ') = true := by
  rw [bne_iff_ne]
  rintro rfl
  exact absurd h (by decide)

theorem isDigit_not_sign {c : Char} (h : isDigit c = true) : c ≠ '-' ∧ c ≠ '+' := by
  constructor
  · rintro rfl
    exact absurd h (by decide)
  · rintro rfl
    exact absurd h (by decide)

theorem firstField_digits (ds rest : Str) (hd : ds.all isDigit = true)
    (hr : rest = [] ∨ rest.head? = some ' ') : firstField (ds ++ rest) = ds := by
  unfold firstField
  induction ds with
  | nil =>
    rcases hr with rfl | hr
    · rfl
    · cases rest with
      | nil => rfl
      | cons c r =>
        simp only [List.head?_cons, Option.some.injEq] at hr
        subst hr
        rfl
  | cons c t ih =>
    simp only [List.all_cons, Bool.and_eq_true] at hd
    rw [List.cons_append, List.takeWhile_cons, isDigit_ne_space hd.1, if_pos rfl, ih hd.2]

theorem firstField_digits_then (ds rest : Str) (c : Char) (hd : ds.all isDigit = true)
    (hc : c ≠ ' ') :
    firstField (ds ++ c :: rest) = ds ++ c :: firstField rest := by
  unfold firstField
  induction ds with
  | nil =>
    have : (c != ' ') = true := by rw [bne_iff_ne]; exact hc
    rw [List.nil_append, List.takeWhile_cons, this, if_pos rfl, List.nil_append]
  | cons d t ih =>
    simp only [List.all_cons, Bool.and_eq_true] at hd
    rw [List.cons_append, List.takeWhile_cons, isDigit_ne_space hd.1, if_pos rfl, ih hd.2,
      List.cons_append]

theorem atoi_digits (ds : Str) (hne : ds ≠ []) (hd : ds.all isDigit = true)
    (hfit : decimalValue ds < 9223372036854775808) :
    atoi ds = ((decimalValue ds : Int), true) := by
  cases ds with
  | nil => exact absurd rfl hne
  | cons c t =>
    have hc : isDigit c = true := by
      simp only [List.all_cons, Bool.and_eq_true] at hd
      exact hd.1
    have hs := isDigit_not_sign hc
    have h1 : ((c :: t).head? == some '-') = false := by
      simp [hs.1]
    have h2 : ((c :: t).head? == some '+') = false := by
      simp [hs.2]
    unfold atoi
    simp only [h1, h2, Bool.or_false, Bool.false_eq_true, if_false, hd, List.isEmpty_cons,
      Bool.not_true]
    rw [if_neg (by omega)]

theorem atoi_not_all_digits (s : Str) (h1 : s.head? ≠ some '-') (h2 : s.head? ≠ some '+')
    (hd : s.all isDigit = false) : atoi s = (0, false) := by
  have e1 : (s.head? == some '-') = false := by
    rw [beq_eq_false_iff_ne]; exact h1
  have e2 : (s.head? == some '+') = false := by
    rw [beq_eq_false_iff_ne]; exact h2
  unfold atoi
  simp only [e1, e2, Bool.or_false, Bool.false_eq_true, if_false, hd, Bool.not_false,
    Bool.or_true, if_true]

theorem takeWhile_isDigit_digits (ds rest : Str) (hd : ds.all isDigit = true)
    (hr : rest = [] ∨ rest.head? = some ' ') : (ds ++ rest).takeWhile isDigit = ds := by
  induction ds with
  | nil =>
    rcases hr with rfl | hr
    · rfl
    · cases rest with
      | nil => rfl
      | cons c r =>
        simp only [List.head?_cons, Option.some.injEq] at hr
        subst hr
        rfl
  | cons c t ih =>
    simp only [List.all_cons, Bool.and_eq_true] at hd
    rw [List.cons_append, List.takeWhile_cons, hd.1, if_pos rfl, ih hd.2]

theorem rowPlayCount_digits (ds rest : Str) (hne : ds ≠ []) (hd : ds.all isDigit = true)
    (hfit : decimalValue ds < 9223372036854775808)
    (hr : rest = [] ∨ rest.head? = some ' ') :
    rowPlayCount (ds ++ rest) = (decimalValue ds : Int) := by
  unfold rowPlayCount
  rw [firstField_digits ds rest hd hr, atoi_digits ds hne hd hfit]

theorem rowPlayCount_no_number (text : Str)
    (h : ∀ c, text.head? = some c → isDigit c = false ∧ c ≠ '-' ∧ c ≠ '+') :
    rowPlayCount text = 0 := by
  unfold rowPlayCount
  cases text with
  | nil => rfl
  | cons c t =>
    obtain ⟨hc, hm, hp⟩ := h c rfl
    by_cases hsp : c = ' '
    · subst hsp
      rfl
    · have e := firstField_digits_then [] t c rfl hsp
      rw [List.nil_append, List.nil_append] at e
      rw [e, atoi_not_all_digits]
      · simpa using hm
      · simpa using hp
      · simp [hc]

theorem onChartlistRow_playCount (collageType : Str) (e : ChartRow) (tiles out : List tile)
    (h : onChartlistRow collageType e tiles = Outcome.ret out) :
    out = tiles ∨ ∃ t, out = tiles ++ [t] ∧ t.playCount = rowPlayCount e.countBarValue := by
  unfold onChartlistRow at h
  split at h
  · split at h
    · exact absurd h (by simp)
    · dsimp only at h
      split at h
      · left; exact (Outcome.ret.inj h).symm
      · right; exact ⟨_, (Outcome.ret.inj h).symm, rfl⟩
  · split at h
    · exact absurd h (by simp)
    · dsimp only at h
      split at h
      · left; exact (Outcome.ret.inj h).symm
      · right; exact ⟨_, (Outcome.ret.inj h).symm, rfl⟩

/-- C7 (as amended): the play count of a listing tile is what `strconv.Atoi` gives for the
text before the first space, the error being discarded.  Every tile the row callback
appends carries `rowPlayCount` of the row's count text, and for that number: when the
leading run of ASCII digits is non-empty, denotes a number below `2^63` and is followed by
a space or by the end of the text, it is the number the run denotes; when the text begins
with neither a digit nor a sign it is 0. -/
theorem rowPlayCount_first_field (collageType : Str) (e : ChartRow) (tiles out : List tile)
    (text ds rest : Str) :
    (onChartlistRow collageType e tiles = Outcome.ret out →
      out = tiles ∨ ∃ t, out = tiles ++ [t] ∧ t.playCount = rowPlayCount e.countBarValue) ∧
    (ds ≠ [] → ds.all isDigit = true → decimalValue ds < 9223372036854775808 →
      (rest = [] ∨ rest.head? = some ' ') →
      rowPlayCount (ds ++ rest) = (decimalValue ds : Int)
        ∧ rowPlayCount (ds ++ rest) = leadingDigitsValue (ds ++ rest)) ∧
    ((∀ d, text.head? = some d → isDigit d = false ∧ d ≠ '-' ∧ d ≠ '+') →
      rowPlayCount text = 0) := by
  refine ⟨onChartlistRow_playCount collageType e tiles out, ?_, rowPlayCount_no_number text⟩
  intro hne hd hfit hr
  refine ⟨rowPlayCount_digits ds rest hne hd hfit hr, ?_⟩
  rw [rowPlayCount_digits ds rest hne hd hfit hr]
  unfold leadingDigitsValue
  rw [takeWhile_isDigit_digits ds rest hd hr]

/-- C7 at concrete texts: the row callback stores 12 for the count text `12 scrobbles`,
`1234 scrobbles` gives 1234 and `abc` gives 0. -/
theorem rowPlayCount_first_field_witness :
    (∃ t, [sampleTile] = [] ++ [t] ∧ t.playCount = rowPlayCount sampleRow.countBarValue) ∧
      rowPlayCount "1234 scrobbles".toList = 1234 ∧ rowPlayCount "abc".toList = 0 :=
  have h := rowPlayCount_first_field ARTIST sampleRow [] [sampleTile] "abc".toList
    "1234".toList " scrobbles".toList
  ⟨(h.1 (by decide)).resolve_left (by decide),
    (h.2.1 (by decide) (by decide) (by decide) (by decide)).1, h.2.2 (by decide)⟩

/-- C7 (as stated) fails: for a listing row whose count text is `1,234 scrobbles` the
leading run of digits denotes 1 but the tile appended by the row callback has play count 0;
on `-5 plays` the stored play count is negative. -/
theorem rowPlayCount_not_leading_digits :
    onChartlistRow ARTIST
        { nameLink := "Nm".toList, artistLink := [],
          avatarSrcs := ["https://h.net/i/u/avatar70s/ab.jpg".toList], coverSrcs := [],
          countBarValue := "1,234 scrobbles".toList } []
      = Outcome.ret [{ artist := "Nm".toList, album := [], track := [], playCount := 0,
                       imgURL := "https://h.net/i/u/avatar300s/ab.webp".toList,
                       img := none }]
      ∧ rowPlayCount "1,234 scrobbles".toList ≠ leadingDigitsValue "1,234 scrobbles".toList
      ∧ leadingDigitsValue "1,234 scrobbles".toList = 1
      ∧ rowPlayCount "-5 plays".toList < 0 := by
  decide

/-! ## URL normalisation -/

theorem isPrefixOf_of_replaceFirst (q new l : Str) (hl : '.' ∉ l) :
    ∀ s : Str, l.isPrefixOf (replaceFirst ('.' :: q) ('.' :: new) s) = true →
      l.isPrefixOf s = true := by
  induction l with
  | nil => intro s _; cases s <;> rfl
  | cons b l ih =>
    have hb : b ≠ '.' := fun h => hl (h ▸ List.mem_cons_self _ _)
    have hl2 : '.' ∉ l := fun h => hl (List.mem_cons_of_mem _ h)
    intro s h
    cases s with
    | nil =>
      simp [replaceFirst] at h
    | cons c t =>
      unfold replaceFirst at h
      split at h
      · rw [List.cons_append, List.isPrefixOf_cons₂] at h
        simp [hb] at h
      · rw [List.isPrefixOf_cons₂, Bool.and_eq_true] at h
        rw [List.isPrefixOf_cons₂, Bool.and_eq_true]
        exact ⟨h.1, ih hl2 t h.2⟩

theorem countSub_skip (p l : Str) (hl : '.' ∉ l) (rest : Str) :
    countSub ('.' :: p) (l ++ rest) = countSub ('.' :: p) rest := by
  induction l with
  | nil => rfl
  | cons b l ih =>
    have hb : b ≠ '.' := fun h => hl (h ▸ List.mem_cons_self _ _)
    have hl2 : '.' ∉ l := fun h => hl (List.mem_cons_of_mem _ h)
    have hne : ('.' == b) = false := by
      rw [beq_eq_false_iff_ne]; exact fun h => hb h.symm
    rw [List.cons_append, countSub, List.isPrefixOf_cons₂, hne, Bool.false_and, ih hl2]
    simp

theorem countSub_tail_le (p : Str) (c : Char) (t : Str) :
    countSub p t ≤ countSub p (c :: t) := by
  rw [countSub]
  exact Nat.le_add_left _ _

theorem countSub_drop_le (p : Str) (k : Nat) : ∀ s : Str, countSub p (s.drop k) ≤ countSub p s := by
  induction k with
  | zero => intro s; exact Nat.le_refl _
  | succ k ih =>
    intro s
    cases s with
    | nil => exact Nat.le_refl _
    | cons c t =>
      rw [List.drop_succ_cons]
      exact Nat.le_trans (ih t) (countSub_tail_le p c t)

theorem countSub_replaced (p new : Str) (hn : '.' ∉ new)
    (hw : ∀ r, p.isPrefixOf (new ++ r) = false) (rest : Str) :
    countSub ('.' :: p) (('.' :: new) ++ rest) = countSub ('.' :: p) rest := by
  rw [List.cons_append, countSub, List.isPrefixOf_cons₂, hw rest, Bool.and_false,
    countSub_skip p new hn rest]
  simp

theorem countSub_replaceFirst_le (p q new : Str) (hp : '.' ∉ p) (hn : '.' ∉ new)
    (hw : ∀ r, p.isPrefixOf (new ++ r) = false) :
    ∀ s : Str, countSub ('.' :: p) (replaceFirst ('.' :: q) ('.' :: new) s)
      ≤ countSub ('.' :: p) s := by
  intro s
  induction s with
  | nil => simp [replaceFirst]
  | cons c t ih =>
    unfold replaceFirst
    split
    · rw [countSub_replaced p new hn hw]
      exact countSub_drop_le _ _ _
    · rw [countSub, countSub]
      apply Nat.add_le_add _ ih
      by_cases h : List.isPrefixOf ('.' :: p) (c :: replaceFirst ('.' :: q) ('.' :: new) t) = true
      · rw [List.isPrefixOf_cons₂, Bool.and_eq_true] at h
        have h2 := isPrefixOf_of_replaceFirst q new p hp t h.2
        have : List.isPrefixOf ('.' :: p) (c :: t) = true := by
          rw [List.isPrefixOf_cons₂, Bool.and_eq_true]
          exact ⟨h.1, h2⟩
        rw [if_pos this]
        split <;> omega
      · rw [if_neg h]
        exact Nat.zero_le _

theorem countSub_replaceFirst_self (p new : Str) (hp : '.' ∉ p) (hn : '.' ∉ new)
    (hw : ∀ r, p.isPrefixOf (new ++ r) = false) :
    ∀ s : Str, countSub ('.' :: p) s ≤ 1 →
      countSub ('.' :: p) (replaceFirst ('.' :: p) ('.' :: new) s) = 0 := by
  intro s
  induction s with
  | nil => intro _; simp [replaceFirst, countSub]
  | cons c t ih =>
    intro h
    rw [countSub] at h
    unfold replaceFirst
    split
    · rename_i hm
      rw [if_pos hm] at h
      have ht : countSub ('.' :: p) t = 0 := by omega
      rw [countSub_replaced p new hn hw]
      have := countSub_drop_le ('.' :: p) (('.' :: p).length) (c :: t)
      rw [countSub, if_pos hm, ht] at this
      have h3 : (c :: t).drop (('.' :: p).length) = t.drop p.length := by
        rw [List.length_cons, List.drop_succ_cons]
      rw [h3] at this ⊢
      have := countSub_drop_le ('.' :: p) p.length t
      omega
    · rename_i hm
      rw [if_neg hm] at h
      rw [countSub, ih (by omega)]
      by_cases h1 : List.isPrefixOf ('.' :: p) (c :: replaceFirst ('.' :: p) ('.' :: new) t) = true
      · rw [List.isPrefixOf_cons₂, Bool.and_eq_true] at h1
        have h2 := isPrefixOf_of_replaceFirst p new p hp t h1.2
        exact absurd (by rw [List.isPrefixOf_cons₂, Bool.and_eq_true]; exact ⟨h1.1, h2⟩) hm
      · rw [if_neg h1]

theorem replaceFirst_of_countSub_zero (p new : Str) (c0 : Char) :
    ∀ s : Str, countSub (c0 :: p) s = 0 → replaceFirst (c0 :: p) new s = s := by
  intro s
  induction s with
  | nil => intro _; simp [replaceFirst]
  | cons c t ih =>
    intro h
    rw [countSub] at h
    have hm : ¬ List.isPrefixOf (c0 :: p) (c :: t) = true := by
      intro hm
      rw [if_pos hm] at h
      omega
    rw [if_neg hm] at h
    unfold replaceFirst
    rw [if_neg hm, ih (by omega)]


theorem webp_ext_facts :
    ('.' ∉ "jpg".toList ∧ '.' ∉ "png".toList ∧ '.' ∉ "gif".toList ∧ '.' ∉ "webp".toList) ∧
    (∀ r, List.isPrefixOf "jpg".toList ("webp".toList ++ r) = false) ∧
    (∀ r, List.isPrefixOf "png".toList ("webp".toList ++ r) = false) ∧
    (∀ r, List.isPrefixOf "gif".toList ("webp".toList ++ r) = false) :=
  ⟨by decide, fun _ => rfl, fun _ => rfl, fun _ => rfl⟩

theorem toWebp_eq (url : Str) :
    toWebp url = replaceFirst ('.' :: "gif".toList) ('.' :: "webp".toList)
      (replaceFirst ('.' :: "png".toList) ('.' :: "webp".toList)
        (replaceFirst ('.' :: "jpg".toList) ('.' :: "webp".toList) url)) :=
  rfl

theorem toWebp_clean (u : Str)
    (hj : countSub ".jpg".toList u ≤ 1) (hp : countSub ".png".toList u ≤ 1)
    (hg : countSub ".gif".toList u ≤ 1) :
    countSub ".jpg".toList (toWebp u) = 0 ∧ countSub ".png".toList (toWebp u) = 0 ∧
      countSub ".gif".toList (toWebp u) = 0 := by
  obtain ⟨⟨dj, dp, dg, dw⟩, wj, wp, wg⟩ := webp_ext_facts
  have ej : ".jpg".toList = '.' :: "jpg".toList := rfl
  have ep : ".png".toList = '.' :: "png".toList := rfl
  have eg : ".gif".toList = '.' :: "gif".toList := rfl
  rw [ej] at hj ⊢
  rw [ep] at hp ⊢
  rw [eg] at hg ⊢
  rw [toWebp_eq]
  have j1 := countSub_replaceFirst_self "jpg".toList "webp".toList dj dw wj u hj
  have p1 := countSub_replaceFirst_le "png".toList "jpg".toList "webp".toList dp dw wp u
  have g1 := countSub_replaceFirst_le "gif".toList "jpg".toList "webp".toList dg dw wg u
  generalize replaceFirst ('.' :: "jpg".toList) ('.' :: "webp".toList) u = u1 at j1 p1 g1 ⊢
  have j2 := countSub_replaceFirst_le "jpg".toList "png".toList "webp".toList dj dw wj u1
  have p2 := countSub_replaceFirst_self "png".toList "webp".toList dp dw wp u1 (by omega)
  have g2 := countSub_replaceFirst_le "gif".toList "png".toList "webp".toList dg dw wg u1
  generalize replaceFirst ('.' :: "png".toList) ('.' :: "webp".toList) u1 = u2 at j2 p2 g2 ⊢
  have j3 := countSub_replaceFirst_le "jpg".toList "gif".toList "webp".toList dj dw wj u2
  have p3 := countSub_replaceFirst_le "png".toList "gif".toList "webp".toList dp dw wp u2
  have g3 := countSub_replaceFirst_self "gif".toList "webp".toList dg dw wg u2 (by omega)
  omega

theorem toWebp_of_no_ext (u : Str)
    (hj : countSub ".jpg".toList u = 0) (hp : countSub ".png".toList u = 0)
    (hg : countSub ".gif".toList u = 0) : toWebp u = u := by
  have ej : ".jpg".toList = '.' :: "jpg".toList := rfl
  have ep : ".png".toList = '.' :: "png".toList := rfl
  have eg : ".gif".toList = '.' :: "gif".toList := rfl
  rw [ej] at hj
  rw [ep] at hp
  rw [eg] at hg
  rw [toWebp_eq, replaceFirst_of_countSub_zero _ _ _ u hj,
    replaceFirst_of_countSub_zero _ _ _ u hp, replaceFirst_of_countSub_zero _ _ _ u hg]

/-- C6 (as amended): `toWebp` replaces only the first occurrence of each of `.jpg`, `.png`
and `.gif`.  So `toWebp (toWebp u) = toWebp u` holds for every URL `u` in which each of the
three extensions occurs at most once, and a URL in which none of them occurs is returned
unchanged. -/
theorem toWebp_idempotent_of_single_ext (u : Str) :
    (countSub ".jpg".toList u ≤ 1 → countSub ".png".toList u ≤ 1 →
      countSub ".gif".toList u ≤ 1 → toWebp (toWebp u) = toWebp u) ∧
    (countSub ".jpg".toList u = 0 → countSub ".png".toList u = 0 →
      countSub ".gif".toList u = 0 → toWebp u = u) := by
  refine ⟨fun hj hp hg => ?_, toWebp_of_no_ext u⟩
  obtain ⟨cj, cp, cg⟩ := toWebp_clean u hj hp hg
  exact toWebp_of_no_ext (toWebp u) cj cp cg

/-- C6 at concrete URLs: an artwork URL ending in `.jpg` is normalised once and for all,
and a URL ending in `.webp` with no other extension in it is unchanged. -/
theorem toWebp_idempotent_of_single_ext_witness :
    toWebp (toWebp "https://h.net/i/u/300x300/ab.jpg".toList)
        = toWebp "https://h.net/i/u/300x300/ab.jpg".toList
      ∧ toWebp "https://h.net/i/ab.webp".toList = "https://h.net/i/ab.webp".toList :=
  ⟨(toWebp_idempotent_of_single_ext "https://h.net/i/u/300x300/ab.jpg".toList).1
      (by decide) (by decide) (by decide),
    (toWebp_idempotent_of_single_ext "https://h.net/i/ab.webp".toList).2
      (by decide) (by decide) (by decide)⟩

/-- C6 (as stated) fails: a URL with the same extension twice is rewritten again by a
second application, and a URL that ends in `.webp` but carries `.jpg` further left is
changed. -/
theorem toWebp_not_idempotent :
    toWebp (toWebp "https://h.net/a.jpg.jpg".toList) ≠ toWebp "https://h.net/a.jpg.jpg".toList
      ∧ toWebp "https://h.net/a.jpg.webp".toList ≠ "https://h.net/a.jpg.webp".toList := by
  decide

/-! ## Tile acquisition -/

theorem albumLoop_take (n : Int) :
    ∀ (albums : List AlbumEntry) (tiles : List tile), (tiles.length : Int) < n →
      albumLoop n albums tiles
        = tiles ++ ((albums.filter (fun a => !a.image3.isEmpty)).take
            (n.toNat - tiles.length)).map albumTile := by
  intro albums
  induction albums with
  | nil => intro tiles _; simp [albumLoop]
  | cons a rest ih =>
    intro tiles hlt
    unfold albumLoop
    by_cases ha : a.image3 = []
    · have hf : (!a.image3.isEmpty) = false := by simp [ha]
      simp only [ha, ne_eq, not_true_eq_false, if_false, if_pos hlt]
      have hfil : (a :: rest).filter (fun a => !a.image3.isEmpty)
          = rest.filter (fun a => !a.image3.isEmpty) := by
        rw [List.filter_cons]
        simp only [hf, Bool.false_eq_true, if_false]
      rw [ih tiles hlt, hfil]
    · have hf : (!a.image3.isEmpty) = true := by simp [ha]
      have hpos : n.toNat - tiles.length = (n.toNat - (tiles.length + 1)) + 1 := by omega
      simp only [ne_eq, ha, not_false_eq_true, if_true]
      have hfil : (a :: rest).filter (fun a => !a.image3.isEmpty)
          = a :: rest.filter (fun a => !a.image3.isEmpty) := by
        rw [List.filter_cons]
        simp only [hf, if_true]
      rw [hfil, hpos, List.take_succ_cons, List.map_cons]
      by_cases h1 : ((tiles ++ [albumTile a]).length : Int) < n
      · rw [if_pos h1, ih _ h1, List.length_append, List.length_singleton, List.append_assoc,
          List.singleton_append]
      · rw [if_neg h1]
        rw [List.length_append, List.length_singleton] at h1
        have h0 : n.toNat - (tiles.length + 1) = 0 := by omega
        rw [h0, List.take_zero, List.map_nil]

theorem fetchTileData_album (up : Upstream) (rows cols : Int) (albums : List AlbumEntry)
    (hapi : up.api = ApiResponse.response 200 (some albums)) :
    fetchTileData up rows cols ALBUM
      = if makeslicePanics tileSize (wrap64 (rows * cols)) then Outcome.crash
        else Outcome.ret (some (albumLoop (wrap64 (rows * cols)) albums [])) := by
  unfold fetchTileData fetchTileDataRun
  by_cases h : makeslicePanics tileSize (wrap64 (rows * cols)) = true
  · rw [if_pos h, if_pos h]
  · rw [if_neg h, if_neg h]
    simp only [hapi, if_true, ne_eq, not_true_eq_false, if_false]

theorem grid_product_bounds (rows cols : Int) (hr : 1 ≤ rows ∧ rows ≤ 11)
    (hc : 1 ≤ cols ∧ cols ≤ 11) : 1 ≤ rows * cols ∧ rows * cols ≤ 121 := by
  constructor
  · nlinarith [hr.1, hc.1]
  · nlinarith [hr.1, hr.2, hc.1, hc.2]

theorem makeslice_grid_ok (rows cols : Int) (hr : 1 ≤ rows ∧ rows ≤ 11)
    (hc : 1 ≤ cols ∧ cols ≤ 11) :
    wrap64 (rows * cols) = rows * cols
      ∧ makeslicePanics tileSize (wrap64 (rows * cols)) = false := by
  obtain ⟨h1, h2⟩ := grid_product_bounds rows cols hr hc
  have hw : wrap64 (rows * cols) = rows * cols := wrap64_of_fits _ (by omega) (by omega)
  refine ⟨hw, ?_⟩
  rw [hw]
  unfold makeslicePanics tileSize maxAlloc
  rw [Bool.or_eq_false_iff, decide_eq_false_iff_not, decide_eq_false_iff_not]
  constructor <;> omega

/-- C1 (as amended): for every `rows` and `cols` in `[1,11]`, the range the request handler
lets through, and every API response holding a list of album entries, `fetchTileData`
returns the tiles of exactly the first `rows*cols` entries whose artwork URL is non-empty,
in response order: entries without artwork are skipped and do not count against the limit,
and nothing is collected after the `rows*cols`-th usable entry. -/
theorem fetchTileData_album_take (up : Upstream) (rows cols : Int) (albums : List AlbumEntry)
    (hr : 1 ≤ rows ∧ rows ≤ 11) (hc : 1 ≤ cols ∧ cols ≤ 11)
    (hapi : up.api = ApiResponse.response 200 (some albums)) :
    fetchTileData up rows cols ALBUM
      = Outcome.ret (some (((albums.filter (fun a => !a.image3.isEmpty)).take
          (rows * cols).toNat).map albumTile)) := by
  obtain ⟨h1, _⟩ := grid_product_bounds rows cols hr hc
  obtain ⟨hw, hm⟩ := makeslice_grid_ok rows cols hr hc
  rw [fetchTileData_album up rows cols albums hapi, hm, hw, if_neg (by simp),
    albumLoop_take (rows * cols) albums [] (by simpa using h1)]
  simp

/-- C1 on a 1 by 2 request: of five entries, two of them without artwork, the first two
with artwork are returned and the last one is not collected. -/
theorem fetchTileData_album_take_witness :
    fetchTileData
        (apiWith [⟨[], [], 0, []⟩, sampleAlbum 5, ⟨[], [], 0, []⟩, sampleAlbum 4, sampleAlbum 3])
        1 2 ALBUM
      = Outcome.ret (some [albumTile (sampleAlbum 5), albumTile (sampleAlbum 4)]) :=
  (fetchTileData_album_take
    (apiWith [⟨[], [], 0, []⟩, sampleAlbum 5, ⟨[], [], 0, []⟩, sampleAlbum 4, sampleAlbum 3])
    1 2 [⟨[], [], 0, []⟩, sampleAlbum 5, ⟨[], [], 0, []⟩, sampleAlbum 4, sampleAlbum 3]
    (by decide) (by decide) rfl).trans (by decide)

/-- C1 (as stated) fails for `rows = cols = 2^32`: the product `rows*cols` is 0 in the
64-bit `int`, the callback stops the iteration after the first entry, and one tile is
returned where the first `rows*cols` usable entries are both entries of the response.
For `rows = cols = 2^31` the allocation of the tile slice panics and nothing is returned. -/
theorem fetchTileData_album_overflow :
    fetchTileData (apiWith [sampleAlbum 5, sampleAlbum 4]) 4294967296 4294967296 ALBUM
        = Outcome.ret (some [albumTile (sampleAlbum 5)])
      ∧ (([sampleAlbum 5, sampleAlbum 4].filter (fun a => !a.image3.isEmpty)).take
            ((4294967296 : Int) * 4294967296).toNat).map albumTile
          = [albumTile (sampleAlbum 5), albumTile (sampleAlbum 4)]
      ∧ fetchTileData (apiWith [sampleAlbum 5, sampleAlbum 4]) 4294967296 4294967296 ALBUM
        ≠ Outcome.ret (some ((([sampleAlbum 5, sampleAlbum 4].filter
            (fun a => !a.image3.isEmpty)).take
              ((4294967296 : Int) * 4294967296).toNat).map albumTile))
      ∧ fetchTileData (apiWith [sampleAlbum 5, sampleAlbum 4]) 2147483648 2147483648 ALBUM
        = Outcome.crash := by
  with_unfolding_all decide

/-- C2 fails on the code for the listing kinds: for a 1 by 1 artist request the listing
adapter returns all 50 tiles of the first page, more than `rows*cols = 1`. -/
theorem fetchTileData_listing_exceeds_grid :
    fetchTileData listing75 1 1 ARTIST = Outcome.ret (some (List.replicate 50 sampleTile))
      ∧ ¬ (((List.replicate 50 sampleTile).length : Int) ≤ 1 * 1) := by
  with_unfolding_all decide

/-- C9 fails on the code: for an 8 by 8 artist request the page bound is 2 and the first
page, which shows the total 75, is delivered; the loop then stops because `75 < 2*50`, so
only page 1 is requested and 50 tiles are returned, although `75 > 50*1` says that page 2
still holds items (it holds 25) and 64 tiles are wanted. -/
theorem fetchTileData_skips_partly_filled_page :
    (fetchTileDataRun listing75 8 8 ARTIST).1 = [1]
      ∧ pageCap (wrap64 (wrap64 (8 * 8) + 15)) = 2
      ∧ listing75.page 1 = PageResponse.html ["75".toList] (List.replicate 50 sampleRow)
      ∧ parseHumanNumber "75".toList = 75
      ∧ ¬ ((75 : Int) ≤ 50 * 1)
      ∧ listing75.page 2 = PageResponse.html ["75".toList] (List.replicate 25 sampleRow)
      ∧ fetchTileData listing75 8 8 ARTIST
          = Outcome.ret (some (List.replicate 50 sampleTile)) := by
  with_unfolding_all decide

theorem visit_error (collageType : Str) (st : Scrape) :
    visit collageType PageResponse.error st = Outcome.ret { st with collyFailed := true } :=
  rfl

theorem visit_html_collyFailed (collageType : Str) (metadata : List Str) (rows : List ChartRow)
    (st st1 : Scrape)
    (h : visit collageType (PageResponse.html metadata rows) st = Outcome.ret st1) :
    st1.collyFailed = st.collyFailed := by
  unfold visit at h
  dsimp only at h
  split at h
  · exact absurd h (by simp)
  · rw [← Outcome.ret.inj h]

theorem pageLoop_of_failed (up : Upstream) (collageType : Str) (remaining i : Nat)
    (st : Scrape) (hf : st.collyFailed = true) :
    pageLoop up collageType remaining i st = ([], Outcome.ret st) := by
  cases remaining with
  | zero => rfl
  | succ r =>
    unfold pageLoop
    rw [hf, Bool.true_or, if_pos rfl]

theorem pageLoop_failed_iff (up : Upstream) (collageType : Str) :
    ∀ (remaining i : Nat) (st : Scrape), st.collyFailed = false →
      ((pageLoop up collageType remaining i st).2 = Outcome.crash →
        ∀ p ∈ (pageLoop up collageType remaining i st).1, up.page p ≠ PageResponse.error) ∧
      (∀ st1, (pageLoop up collageType remaining i st).2 = Outcome.ret st1 →
        (st1.collyFailed = true ↔
          ∃ p ∈ (pageLoop up collageType remaining i st).1, up.page p = PageResponse.error)) := by
  intro remaining
  induction remaining with
  | zero =>
    intro i st hst
    refine ⟨fun h => absurd h (by simp [pageLoop]), fun st1 h => ?_⟩
    have e : st1 = st := (Outcome.ret.inj h).symm
    subst e
    simp [pageLoop, hst]
  | succ r ih =>
    intro i st hst
    unfold pageLoop
    split
    · refine ⟨fun h => absurd h (by simp), fun st1 h => ?_⟩
      have e : st1 = st := (Outcome.ret.inj h).symm
      subst e
      simp [hst]
    · cases hp : up.page (i + 1) with
      | error =>
        rw [visit_error]
        dsimp only
        rw [pageLoop_of_failed up collageType r (i + 1) _ rfl]
        refine ⟨fun h => absurd h (by simp), fun st1 h => ?_⟩
        have e : st1 = { st with collyFailed := true } := (Outcome.ret.inj h).symm
        subst e
        simp [hp]
      | html metadata rows =>
        cases hv : visit collageType (PageResponse.html metadata rows) st with
        | crash =>
          dsimp only
          refine ⟨fun _ p hmem => ?_, fun st1 h => absurd h (by simp)⟩
          rw [List.mem_singleton] at hmem
          subst hmem
          rw [hp]
          simp
        | ret st2 =>
          dsimp only
          have h2 : st2.collyFailed = false := by
            rw [visit_html_collyFailed collageType metadata rows st st2 hv, hst]
          obtain ⟨ihc, ihr⟩ := ih (i + 1) st2 h2
          have hne : up.page (i + 1) ≠ PageResponse.error := by rw [hp]; simp
          refine ⟨fun h p hmem => ?_, fun st1 h => ?_⟩
          · rcases List.mem_cons.mp hmem with rfl | hmem
            · exact hne
            · exact ihc h p hmem
          · rw [ihr st1 h]
            constructor
            · rintro ⟨p, hmem, hpe⟩
              exact ⟨p, List.mem_cons_of_mem _ hmem, hpe⟩
            · rintro ⟨p, hmem, hpe⟩
              rcases List.mem_cons.mp hmem with rfl | hmem
              · exact absurd hpe hne
              · exact ⟨p, hmem, hpe⟩

theorem fetchTileDataRun_listing (up : Upstream) (rows cols : Int) (collageType : Str)
    (hct : collageType = ARTIST ∨ collageType = TRACK)
    (hn : ¬ makeslicePanics tileSize (wrap64 (rows * cols)) = true) :
    fetchTileDataRun up rows cols collageType
      = match pageLoop up collageType (pageCap (wrap64 (wrap64 (rows * cols) + 15))).toNat 0
          { tiles := [], total := -1, collyFailed := false } with
        | (issued, Outcome.crash) => (issued, Outcome.crash)
        | (issued, Outcome.ret st) =>
          if st.collyFailed then (issued, Outcome.ret none)
          else (issued, Outcome.ret (some st.tiles)) := by
  have hna : collageType ≠ ALBUM := by
    rcases hct with rfl | rfl <;> decide
  unfold fetchTileDataRun
  rw [if_neg hn]
  simp only [hna, if_false, hct, if_true]

/-- C5: for the listing kinds (artist, track), whatever the rows, the columns and the
upstream answers, `fetchTileData` returns nil whenever one of the page requests it issued
failed, however many tiles the earlier pages produced, and it returns a tile sequence only
when every page request it issued succeeded. -/
theorem fetchTileData_listing_all_or_nothing (up : Upstream) (rows cols : Int)
    (collageType : Str) (hct : collageType = ARTIST ∨ collageType = TRACK) :
    ((∃ p ∈ (fetchTileDataRun up rows cols collageType).1, up.page p = PageResponse.error) →
      fetchTileData up rows cols collageType = Outcome.ret none) ∧
    (∀ ts, fetchTileData up rows cols collageType = Outcome.ret (some ts) →
      ∀ p ∈ (fetchTileDataRun up rows cols collageType).1, up.page p ≠ PageResponse.error) := by
  unfold fetchTileData
  by_cases hn : makeslicePanics tileSize (wrap64 (rows * cols)) = true
  · have e : fetchTileDataRun up rows cols collageType = ([], Outcome.crash) := by
      unfold fetchTileDataRun
      rw [if_pos hn]
    rw [e]
    exact ⟨fun ⟨p, hmem, _⟩ => absurd hmem (List.not_mem_nil p), fun ts h => absurd h (by simp)⟩
  · rw [fetchTileDataRun_listing up rows cols collageType hct hn]
    obtain ⟨hc, hr⟩ := pageLoop_failed_iff up collageType
      (pageCap (wrap64 (wrap64 (rows * cols) + 15))).toNat 0
      { tiles := [], total := -1, collyFailed := false } rfl
    generalize pageLoop up collageType (pageCap (wrap64 (wrap64 (rows * cols) + 15))).toNat 0
      { tiles := [], total := -1, collyFailed := false } = r at hc hr
    obtain ⟨issued, out⟩ := r
    cases out with
    | crash =>
      dsimp only at hc ⊢
      refine ⟨fun ⟨p, hmem, hpe⟩ => absurd hpe (hc rfl p hmem), fun ts h => absurd h (by simp)⟩
    | ret st =>
      dsimp only at hr ⊢
      have hiff := hr st rfl
      by_cases hf : st.collyFailed = true
      · rw [if_pos hf]
        exact ⟨fun _ => rfl, fun ts h => absurd h (by simp)⟩
      · rw [if_neg hf]
        refine ⟨fun hex => absurd (hiff.2 hex) hf, fun ts _ p hmem hpe => ?_⟩
        exact hf (hiff.2 ⟨p, hmem, hpe⟩)



/-- C5 on an 8 by 8 artist request: page 1 delivers 50 rows and the request for page 2
fails; the 50 tiles are dropped and nil is returned. -/
theorem fetchTileData_listing_all_or_nothing_witness :
    fetchTileData listingFailsOn2 8 8 ARTIST = Outcome.ret none :=
  (fetchTileData_listing_all_or_nothing listingFailsOn2 8 8 ARTIST (Or.inl rfl)).1
    ⟨2, by with_unfolding_all decide, rfl⟩

/-! ## Grid placement -/

theorem succ_ediv_emod (c i : Int) (hc : 1 ≤ c) :
    ((i + 1) % c = 0 → (i + 1) / c = i / c + 1) ∧
    ((i + 1) % c ≠ 0 → (i + 1) % c = i % c + 1 ∧ (i + 1) / c = i / c) := by
  have hpos : 0 < c := by omega
  have h := Int.emod_add_ediv i c
  have hr0 := Int.emod_nonneg i (Int.ne_of_gt hpos)
  have hr1 := Int.emod_lt_of_pos i hpos
  by_cases hlt : i % c + 1 < c
  · have hu := (Int.ediv_emod_unique (a := i + 1) (r := i % c + 1) (q := i / c) hpos).2
      ⟨by omega, by omega, hlt⟩
    refine ⟨fun h0 => ?_, fun _ => ⟨hu.2, hu.1⟩⟩
    rw [hu.2] at h0
    omega
  · have hm : c * (i / c + 1) = c * (i / c) + c := by ring
    have hu := (Int.ediv_emod_unique (a := i + 1) (r := 0) (q := i / c + 1) hpos).2
      ⟨by omega, by omega, hpos⟩
    exact ⟨fun _ => hu.1, fun hne => absurd hu.2 hne⟩

theorem drawLoop_cells (collageType : Str) (cols : Int) (info playCount : Bool)
    (hc : 1 ≤ cols) :
    ∀ (tiles : List tile) (i : Nat) (x y : Int),
      x = 300 * ((i : Int) % cols) → y = 300 * ((i : Int) / cols) →
      drawLoop collageType cols info playCount tiles i x y
        = Outcome.ret ((tiles.enumFrom i).map (fun it =>
            paintTile it.2 collageType info playCount
              (300 * ((it.1 : Int) % cols)) (300 * ((it.1 : Int) / cols)))) := by
  intro tiles
  induction tiles with
  | nil => intro i x y _ _; rfl
  | cons t rest ih =>
    intro i x y hx hy
    have hne : cols ≠ 0 := by omega
    have hs := succ_ediv_emod cols i hc
    have htm : Int.tmod ((i : Int) + 1) cols = ((i : Int) + 1) % cols :=
      Int.tmod_eq_emod (by omega) (by omega)
    have hcast : (((i + 1 : Nat) : Int)) = (i : Int) + 1 := by push_cast; rfl
    unfold drawLoop
    rw [if_neg hne, htm, ih (i + 1) _ _ ?_ ?_]
    · rw [List.enumFrom_cons, List.map_cons, hx, hy]
    · rw [hcast]
      by_cases h0 : ((i : Int) + 1) % cols = 0
      · rw [if_pos h0, h0]; rfl
      · rw [if_neg h0, (hs.2 h0).1, hx]
        unfold dim
        ring
    · rw [hcast]
      by_cases h0 : ((i : Int) + 1) % cols = 0
      · rw [if_pos h0, hs.1 h0, hy]
        unfold dim
        ring
      · rw [if_neg h0, (hs.2 h0).2, hy]



theorem Rect_cell (x y : Int) :
    Rect x y (x + dim) (y + dim) = { minX := x, minY := y, maxX := x + 300, maxY := y + 300 } := by
  unfold Rect dim
  rw [if_neg (by omega), if_neg (by omega), if_neg (by omega), if_neg (by omega)]

theorem paintTile_cell (t : tile) (collageType : Str) (info playCount : Bool) (cols : Int)
    (i : Nat) :
    paintTile t collageType info playCount (300 * ((i : Int) % cols)) (300 * ((i : Int) / cols))
      = { image := t.img.map (fun im => (cellRect cols i, im)),
          text :=
            if info || playCount then
              some { clip := cellRect cols i, x := (cellRect cols i).minX + 2,
                     y := (cellRect cols i).minY + 2,
                     lines := captionLines t collageType info playCount }
            else none } := by
  unfold paintTile
  rw [Rect_cell]
  rfl

theorem drawLoop_grid (collageType : Str) (cols : Int) (info playCount : Bool)
    (hc : 1 ≤ cols) (tiles : List tile) :
    drawLoop collageType cols info playCount tiles 0 0 0
      = Outcome.ret (tiles.enum.map (fun it =>
          { image := it.2.img.map (fun im => (cellRect cols it.1, im)),
            text :=
              if info || playCount then
                some { clip := cellRect cols it.1, x := (cellRect cols it.1).minX + 2,
                       y := (cellRect cols it.1).minY + 2,
                       lines := captionLines it.2 collageType info playCount }
              else none })) := by
  rw [drawLoop_cells collageType cols info playCount hc tiles 0 0 0 (by simp) (by simp)]
  unfold List.enum
  congr 1
  apply List.map_congr_left
  intro it _
  exact paintTile_cell it.2 collageType info playCount cols it.1

theorem newRGBA_grid_ok (rows cols : Int) (hr : 1 ≤ rows ∧ rows ≤ 11)
    (hc : 1 ≤ cols ∧ cols ≤ 11) :
    Rect 0 0 (wrap64 (dim * cols)) (wrap64 (dim * rows))
        = { minX := 0, minY := 0, maxX := 300 * cols, maxY := 300 * rows }
      ∧ newRGBAPanics { minX := 0, minY := 0, maxX := 300 * cols, maxY := 300 * rows }
        = false := by
  have hw : wrap64 (dim * cols) = 300 * cols := by
    unfold dim
    exact wrap64_of_fits _ (by omega) (by omega)
  have hh : wrap64 (dim * rows) = 300 * rows := by
    unfold dim
    exact wrap64_of_fits _ (by omega) (by omega)
  have hb : Rect 0 0 (300 * cols) (300 * rows)
      = { minX := 0, minY := 0, maxX := 300 * cols, maxY := 300 * rows } := by
    unfold Rect
    rw [if_neg (by omega), if_neg (by omega), if_neg (by omega), if_neg (by omega)]
  have hp1 : 1 ≤ cols * rows := by nlinarith [hr.1, hc.1]
  have hp2 : cols * rows ≤ 121 := by nlinarith [hr.1, hr.2, hc.1, hc.2]
  have hdx : wrap64 (300 * cols - 0) = 300 * cols := by
    rw [Int.sub_zero]
    exact wrap64_of_fits _ (by omega) (by omega)
  have hdy : wrap64 (300 * rows - 0) = 300 * rows := by
    rw [Int.sub_zero]
    exact wrap64_of_fits _ (by omega) (by omega)
  have e : 4 * (300 * cols) * (300 * rows) = 360000 * (cols * rows) := by ring
  have hm : mul3NonNeg 4 (300 * cols) (300 * rows) = 360000 * (cols * rows) := by
    unfold mul3NonNeg
    rw [e, if_neg (by omega), if_neg (by omega), if_neg (by omega), if_neg (by omega)]
  refine ⟨by rw [hw, hh, hb], ?_⟩
  unfold newRGBAPanics
  dsimp only
  rw [hdx, hdy, hm]
  unfold makeslicePanics maxAlloc
  rw [Bool.or_eq_false_iff, Bool.or_eq_false_iff, decide_eq_false_iff_not,
    decide_eq_false_iff_not]
  refine ⟨?_, ?_, ?_⟩
  · omega
  · omega
  · omega

theorem drawCollage_grid (tiles : List tile) (collageType : Str) (rows cols : Int)
    (info playCount : Bool) (hr : 1 ≤ rows ∧ rows ≤ 11) (hc : 1 ≤ cols ∧ cols ≤ 11) :
    drawCollage tiles collageType rows cols info playCount
      = Outcome.ret
          { bounds := { minX := 0, minY := 0, maxX := 300 * cols, maxY := 300 * rows },
            painted := tiles.enum.map (fun it =>
              { image := it.2.img.map (fun im => (cellRect cols it.1, im)),
                text :=
                  if info || playCount then
                    some { clip := cellRect cols it.1, x := (cellRect cols it.1).minX + 2,
                           y := (cellRect cols it.1).minY + 2,
                           lines := captionLines it.2 collageType info playCount }
                  else none }) } := by
  obtain ⟨hb, hp⟩ := newRGBA_grid_ok rows cols hr hc
  unfold drawCollage
  rw [hb, hp, if_neg (by simp), drawLoop_grid collageType cols info playCount hc.1 tiles]

/-- C3 (as amended): for every `rows` and `cols` in `[1,11]`, the range the request handler
lets through, and every tile sequence, `drawCollage` returns, and what it painted for the
tile at index `i` (the image when the tile has one, and the caption clip rectangle when a
caption is asked for) is placed in the 300x300 cell with top-left corner
`(300*(i mod cols), 300*(i div cols))`, so the grid position is the acquisition index, row
by row.  For every `cols >= 1` the counters `x`, `y` of the tile loop equal this closed
form at every iteration the loop runs. -/
theorem drawCollage_row_major (tiles : List tile) (collageType : Str) (rows cols : Int)
    (info playCount : Bool) (hr : 1 ≤ rows ∧ rows ≤ 11) (hc : 1 ≤ cols ∧ cols ≤ 11) :
    drawCollage tiles collageType rows cols info playCount
      = Outcome.ret
          { bounds := { minX := 0, minY := 0, maxX := 300 * cols, maxY := 300 * rows },
            painted := tiles.enum.map (fun it =>
              { image := it.2.img.map (fun im => (cellRect cols it.1, im)),
                text :=
                  if info || playCount then
                    some { clip := cellRect cols it.1, x := (cellRect cols it.1).minX + 2,
                           y := (cellRect cols it.1).minY + 2,
                           lines := captionLines it.2 collageType info playCount }
                  else none }) }
    ∧ (∀ (c : Int) (i : Nat), cellRect c i
        = { minX := 300 * ((i : Int) % c), minY := 300 * ((i : Int) / c),
            maxX := 300 * ((i : Int) % c) + 300, maxY := 300 * ((i : Int) / c) + 300 })
    ∧ (∀ (c : Int) (ts : List tile) (i : Nat), 1 ≤ c →
        drawLoop collageType c info playCount ts i
            (300 * ((i : Int) % c)) (300 * ((i : Int) / c))
          = Outcome.ret ((ts.enumFrom i).map (fun it =>
              paintTile it.2 collageType info playCount
                (300 * ((it.1 : Int) % c)) (300 * ((it.1 : Int) / c))))) :=
  ⟨drawCollage_grid tiles collageType rows cols info playCount hr hc, fun _ _ => rfl,
    fun c ts i h1 => drawLoop_cells collageType c info playCount h1 ts i _ _ rfl rfl⟩

/-- C3 on a grid of two columns: the third tile (index 2) is painted into the cell at
`(0, 300)`, the first cell of the second row. -/
theorem drawCollage_row_major_witness :
    ∃ r, drawCollage
        [⟨[], [], [], 0, [], some ⟨1⟩⟩, ⟨[], [], [], 0, [], some ⟨2⟩⟩, ⟨[], [], [], 0, [], some ⟨3⟩⟩]
        ALBUM 2 2 false false = Outcome.ret r
      ∧ r.painted.map (fun p => p.image)
        = [some (⟨0, 0, 300, 300⟩, ⟨1⟩), some (⟨300, 0, 600, 300⟩, ⟨2⟩),
           some (⟨0, 300, 300, 600⟩, ⟨3⟩)] :=
  ⟨_, (drawCollage_row_major _ ALBUM 2 2 false false (by decide) (by decide)).1, by decide⟩

/-- C3 (as stated) fails for `cols = 2^32`: with `rows = 1` the raster would need more
bytes than `image.NewRGBA` can allocate, the call panics before the tile loop and no tile
is painted. -/
theorem drawCollage_huge_cols_panics :
    (1 : Int) ≤ 4294967296
      ∧ drawCollage [plainTile "https://h.net/a.webp".toList] ALBUM 1 4294967296 false false
        = Outcome.crash := by
  with_unfolding_all decide

/-- C8: for `rows` and `cols` in `[1,11]`, every tile sequence and every flag combination,
`drawCollage` returns a raster whose bounds are exactly `(0,0)-(300*cols, 300*rows)`. -/
theorem drawCollage_bounds (tiles : List tile) (collageType : Str) (rows cols : Int)
    (info playCount : Bool) (hr : 1 ≤ rows ∧ rows ≤ 11) (hc : 1 ≤ cols ∧ cols ≤ 11) :
    ∃ painted, drawCollage tiles collageType rows cols info playCount
      = Outcome.ret
          { bounds := { minX := 0, minY := 0, maxX := 300 * cols, maxY := 300 * rows },
            painted := painted } :=
  ⟨_, drawCollage_grid tiles collageType rows cols info playCount hr hc⟩

/-- C8 on a 3 by 3 request: the raster is 900 by 900. -/
theorem drawCollage_bounds_witness :
    ∃ painted, drawCollage [] ALBUM 3 3 true true
      = Outcome.ret
          { bounds := { minX := 0, minY := 0, maxX := 300 * 3, maxY := 300 * 3 },
            painted := painted } :=
  drawCollage_bounds [] ALBUM 3 3 true true (by decide) (by decide)

/-! ## Artwork fetch -/

theorem fetchFrom_crash (net : Nat → FetchResult) :
    ∀ (tiles : List tile) (i j : Nat), j < tiles.length →
      net (i + j) = FetchResult.transportError → fetchFrom net i tiles = Outcome.crash := by
  intro tiles
  induction tiles with
  | nil => intro i j hj _; exact absurd hj (Nat.not_lt_zero j)
  | cons t rest ih =>
    intro i j hj hnet
    unfold fetchFrom
    cases j with
    | zero =>
      rw [Nat.add_zero] at hnet
      rw [hnet]
      rfl
    | succ k =>
      have hk : k < rest.length := Nat.lt_of_succ_lt_succ hj
      have e : i + (k + 1) = (i + 1) + k := by omega
      rw [e] at hnet
      rw [ih (i + 1) k hk hnet]
      cases fetchOneImage t (net i) <;> rfl

/-- C4 fails on the code: when the request of some tile ends in a transport error with no
response, `fetchOneImage` dereferences the nil response and panics, so `fetchImages` does
not complete, whatever the outcomes of the other tiles are. -/
theorem fetchImages_crash_on_unreachable (tiles : List tile) (net : Nat → FetchResult)
    (j : Nat) (hj : j < tiles.length) (hnet : net j = FetchResult.transportError) :
    fetchImages tiles net = Outcome.crash := by
  unfold fetchImages
  exact fetchFrom_crash net tiles 0 j hj (by rw [Nat.zero_add]; exact hnet)

/-- C4 on two tiles: the first artwork is served and decodes, the second URL is
unreachable; no tile sequence comes back. -/
theorem fetchImages_crash_on_unreachable_witness :
    fetchImages [plainTile "https://h.net/a.webp".toList, plainTile "https://x.invalid/b.webp".toList]
        (fun i => if i = 0 then FetchResult.response 200 (some ⟨1⟩)
          else FetchResult.transportError)
      = Outcome.crash :=
  fetchImages_crash_on_unreachable _ _ 1 (by decide) (by decide)

end LastfmCollage
